import Mathlib

/-!
Shallow embedding of the aggregation-and-scoring core of
es_index_impact_analyzer.py: replica resolution, index metrics
collection, grouping, the two scoring modes, cost attribution, and the
control flow of main.  Python floats are modelled as rationals, Python
ints as integers; regular-expression matching is modelled as an abstract
match function supplied with the pattern.
-/

/-- Whitespace characters stripped by the Python int conversion. -/
def isWsChar (c : Char) : Bool :=
  c == ' ' || c == '\t' || c == '\n' || c == '\r'

/-- Value of a run of decimal digits, most significant digit first. -/
def digitsValAux (acc : Nat) : List Char → Nat
  | [] => acc
  | c :: cs => digitsValAux (acc * 10 + (c.toNat - Char.toNat '0')) cs

/-- Strip leading and trailing whitespace. -/
def pyStripWs (s : List Char) : List Char :=
  ((s.dropWhile isWsChar).reverse.dropWhile isWsChar).reverse

/-- Models the Python conversion int(s) of a decimal string: some n on
success, none where a ValueError would be raised. -/
def pyParseInt (s : List Char) : Option Int :=
  let t := pyStripWs s
  match t with
  | [] => none
  | c :: cs =>
    if c = '-' then
      if cs ≠ [] ∧ cs.all Char.isDigit then some (-(digitsValAux 0 cs : Int)) else none
    else if c = '+' then
      if cs ≠ [] ∧ cs.all Char.isDigit then some ((digitsValAux 0 cs : Int)) else none
    else if (c :: cs).all Char.isDigit then some ((digitsValAux 0 (c :: cs) : Int)) else none

/-- Source to_int on a character list: int with fallback 0. -/
def toIntChars (s : List Char) : Int :=
  (pyParseInt s).getD 0

/-- Source to_int: int(value), with TypeError (absent value) and
ValueError both yielding 0. -/
def to_int (value : Option String) : Int :=
  match value with
  | none => 0
  | some s => toIntChars s.data

/-- Models value.split(dash, 1): the part before the first dash, and the
remainder when a dash occurs at all. -/
def splitFirstDash : List Char → List Char × Option (List Char)
  | [] => ([], none)
  | c :: rest =>
    if c = '-' then ([], some rest)
    else
      let r := splitFirstDash rest
      (c :: r.1, r.2)

/-- Source parse_auto_expand: minimum replicas and optional maximum. -/
def parse_auto_expand (value : List Char) : Int × Option Int :=
  match splitFirstDash value with
  | (_, none) => (0, none)
  | (l, some r) =>
    if r = "all".data then (toIntChars l, none)
    else (toIntChars l, some (toIntChars r))

/-- The auto-expand expression selected by parse_replicas: the explicit
auto-expand setting when present, non-empty and not the literal false,
else the raw replica value reinterpreted as a string. -/
def selected_auto_value (value auto_expand : Option String) : String :=
  let v := value.getD ""
  match auto_expand with
  | some a => if a ≠ "" ∧ a ≠ "false" then a else v
  | none => v

/-- Source parse_replicas: effective replica count from the raw replica
setting, the auto-expand setting and the data-node count. -/
def parse_replicas (value auto_expand : Option String) (data_nodes : Nat) : Int :=
  let v := value.getD ""
  match pyParseInt v.data with
  | some k => k
  | none =>
    let auto_value := selected_auto_value value auto_expand
    if auto_value = "" ∨ auto_value = "false" then 0
    else
      let mm := parse_auto_expand auto_value.data
      if 0 < data_nodes then
        match mm.2 with
        | some m => min (max mm.1 ((data_nodes : Int) - 1)) m
        | none => max mm.1 ((data_nodes : Int) - 1)
      else mm.1

/-- Replica resolution exactly as claim C1 words it, translated from the
claim text for refinement comparison with parse_replicas: the claim
omits the source guard that an empty or false expression resolves to
zero replicas and always proceeds to the split on the first dash. -/
def claimReplicas (value auto_expand : Option String) (data_nodes : Nat) : Int :=
  let v := value.getD ""
  match pyParseInt v.data with
  | some k => k
  | none =>
    let mm := parse_auto_expand (selected_auto_value value auto_expand).data
    if 0 < data_nodes then
      match mm.2 with
      | some m => min (max mm.1 ((data_nodes : Int) - 1)) m
      | none => max mm.1 ((data_nodes : Int) - 1)
    else mm.1

/-- The nine numeric fields shared by a per-index metric record and a
group aggregate (the keys of the metrics dictionary in the source). -/
@[ext] structure Metrics where
  primary_storage_gb : Rat
  total_storage_gb : Rat
  doc_count : Int
  total_shards : Int
  total_segments : Int
  segment_memory_mb : Rat
  fielddata_mb : Rat
  query_cache_mb : Rat
  request_cache_mb : Rat
deriving DecidableEq

instance : Add Metrics where
  add a b :=
    ⟨a.primary_storage_gb + b.primary_storage_gb,
     a.total_storage_gb + b.total_storage_gb,
     a.doc_count + b.doc_count,
     a.total_shards + b.total_shards,
     a.total_segments + b.total_segments,
     a.segment_memory_mb + b.segment_memory_mb,
     a.fielddata_mb + b.fielddata_mb,
     a.query_cache_mb + b.query_cache_mb,
     a.request_cache_mb + b.request_cache_mb⟩

instance : Zero Metrics where
  zero := ⟨0, 0, 0, 0, 0, 0, 0, 0, 0⟩

theorem Metrics.add_mk (a1 a2 : Rat) (a3 a4 a5 : Int) (a6 a7 a8 a9 : Rat)
    (b1 b2 : Rat) (b3 b4 b5 : Int) (b6 b7 b8 b9 : Rat) :
    (Metrics.mk a1 a2 a3 a4 a5 a6 a7 a8 a9) + (Metrics.mk b1 b2 b3 b4 b5 b6 b7 b8 b9)
      = Metrics.mk (a1 + b1) (a2 + b2) (a3 + b3) (a4 + b4) (a5 + b5)
          (a6 + b6) (a7 + b7) (a8 + b8) (a9 + b9) := rfl

theorem Metrics.zero_def : (0 : Metrics) = Metrics.mk 0 0 0 0 0 0 0 0 0 := rfl

instance : AddCommMonoid Metrics where
  add_assoc a b c := by
    cases a; cases b; cases c
    simp only [Metrics.add_mk, Metrics.mk.injEq]
    refine ⟨?_, ?_, ?_, ?_, ?_, ?_, ?_, ?_, ?_⟩ <;> exact add_assoc _ _ _
  zero_add a := by
    cases a
    simp only [Metrics.zero_def, Metrics.add_mk, Metrics.mk.injEq]
    refine ⟨?_, ?_, ?_, ?_, ?_, ?_, ?_, ?_, ?_⟩ <;> exact zero_add _
  add_zero a := by
    cases a
    simp only [Metrics.zero_def, Metrics.add_mk, Metrics.mk.injEq]
    refine ⟨?_, ?_, ?_, ?_, ?_, ?_, ?_, ?_, ?_⟩ <;> exact add_zero _
  add_comm a b := by
    cases a; cases b
    simp only [Metrics.add_mk, Metrics.mk.injEq]
    refine ⟨?_, ?_, ?_, ?_, ?_, ?_, ?_, ?_, ?_⟩ <;> exact add_comm _ _
  nsmul := nsmulRec

/-- One normalized per-index metric record, as built by
collect_index_metrics. -/
structure IndexMetric where
  name : String
  metrics : Metrics
deriving DecidableEq

/-- Raw per-index statistics consumed by collect_index_metrics; fields
absent in the JSON payload are already defaulted to 0 here. -/
structure RawIndexStats where
  primary_store_size_in_bytes : Int
  total_store_size_in_bytes : Int
  docs_count : Int
  segments_count : Int
  segments_memory_in_bytes : Int
  fielddata_memory_size_in_bytes : Int
  query_cache_memory_size_in_bytes : Int
  request_cache_memory_size_in_bytes : Int
deriving DecidableEq

/-- Raw per-index settings: the three filtered index settings, each
possibly absent, carried as strings as the settings API returns them. -/
structure IndexSettings where
  number_of_shards : Option String
  number_of_replicas : Option String
  auto_expand_replicas : Option String
deriving DecidableEq

/-- Source bytes_to_gb. -/
def bytes_to_gb (value : Int) : Rat := (value : Rat) / (1024 ^ 3)

/-- Source bytes_to_mb. -/
def bytes_to_mb (value : Int) : Rat := (value : Rat) / (1024 ^ 2)

/-- Settings lookup settings.get(name, empty), every field absent when
the index has no settings entry. -/
def settingsFor (settings : List (String × IndexSettings)) (nm : String) : IndexSettings :=
  match settings.find? (fun p => p.1 = nm) with
  | some p => p.2
  | none => ⟨none, none, none⟩

/-- Effective replica count resolved for one index of a run. -/
def effReplicas (settings : List (String × IndexSettings)) (data_nodes : Nat)
    (nm : String) : Int :=
  parse_replicas (settingsFor settings nm).number_of_replicas
    (settingsFor settings nm).auto_expand_replicas data_nodes

/-- Source collect_index_metrics: one IndexMetric per index present in
the statistics payload. -/
def collect_index_metrics (stats : List (String × RawIndexStats))
    (settings : List (String × IndexSettings)) (data_nodes : Nat) : List IndexMetric :=
  stats.map fun p =>
    let si := settingsFor settings p.1
    let num_shards := to_int si.number_of_shards
    let num_replicas := parse_replicas si.number_of_replicas si.auto_expand_replicas data_nodes
    { name := p.1
      metrics :=
        { primary_storage_gb := bytes_to_gb p.2.primary_store_size_in_bytes
          total_storage_gb := bytes_to_gb p.2.total_store_size_in_bytes
          doc_count := p.2.docs_count
          total_shards := num_shards * (1 + num_replicas)
          total_segments := p.2.segments_count
          segment_memory_mb := bytes_to_mb p.2.segments_memory_in_bytes
          fielddata_mb := bytes_to_mb p.2.fielddata_memory_size_in_bytes
          query_cache_mb := bytes_to_mb p.2.query_cache_memory_size_in_bytes
          request_cache_mb := bytes_to_mb p.2.request_cache_memory_size_in_bytes } }

/-- Source needs_data_nodes: some index setting requires node-count
based resolution. -/
def needs_data_nodes (settings : List (String × IndexSettings)) : Bool :=
  settings.any fun p =>
    (match p.2.auto_expand_replicas with
     | some a => !(a == "") && !(a == "false")
     | none => false)
    || (match p.2.number_of_replicas with
        | some r => r.data.contains '-' || r == "all"
        | none => false)

/-- The capture information an abstract regex match yields: the value of
the named group log_name and the value of the first positional group,
each possibly missing or non-participating. -/
structure Captures where
  log_name : Option String
  first : Option String
deriving DecidableEq

/-- An abstract compiled pattern: whether a group named log_name exists,
the number of capture groups, and the match function on index names. -/
structure Pattern where
  has_log_name : Bool
  groups : Nat
  matchFn : String → Option Captures

/-- Source extract_log_name. -/
def extract_log_name (p : Pattern) (m : Captures) (index_name : String) : String :=
  let name : Option String :=
    if p.has_log_name then m.log_name
    else if 1 ≤ p.groups then m.first
    else none
  match name with
  | none => index_name
  | some s => if s = "" then index_name else s

/-- The stream key an index name is classified under, none when the name
does not match the pattern. -/
def streamKey (p : Pattern) (nm : String) : Option String :=
  (p.matchFn nm).map (fun c => extract_log_name p c nm)

/-- One stream group as accumulated by group_by_logname. -/
structure StreamGroup where
  log_name : String
  index_count : Nat
  impact_score : Rat
  metrics : Metrics
  indices : List String
deriving DecidableEq

/-- Source init_group. -/
def init_group (log_name : String) : StreamGroup :=
  ⟨log_name, 0, 0, 0, []⟩

/-- Fold one matching index into its group: count, membership list and
field-wise metric sums. -/
def addIndexToGroup (g : StreamGroup) (e : IndexMetric) : StreamGroup :=
  { g with
    index_count := g.index_count + 1
    indices := g.indices ++ [e.name]
    metrics := g.metrics + e.metrics }

/-- The setdefault-and-accumulate step on the insertion-ordered group
list: update the group keyed k, creating it at the end when absent. -/
def addEntry : List StreamGroup → String → IndexMetric → List StreamGroup
  | [], k, e => [addIndexToGroup (init_group k) e]
  | g :: gs, k, e =>
    if g.log_name = k then addIndexToGroup g e :: gs
    else g :: addEntry gs k e

/-- The loop of group_by_logname with explicit accumulators. -/
def groupLoop (p : Pattern) : List IndexMetric → List StreamGroup → List String → List StreamGroup × List String
  | [], gs, un => (gs, un)
  | e :: rest, gs, un =>
    match streamKey p e.name with
    | none => groupLoop p rest gs (un ++ [e.name])
    | some k => groupLoop p rest (addEntry gs k e) un

/-- Source group_by_logname: the insertion-ordered group list and the
unmatched index names. -/
def group_by_logname (metrics : List IndexMetric) (p : Pattern) : List StreamGroup × List String :=
  groupLoop p metrics [] []

/-- First group carrying the given stream key. -/
def findGroup (k : String) (gs : List StreamGroup) : Option StreamGroup :=
  gs.find? (fun g => g.log_name = k)

/-- The members of the stream keyed k among a list of index metrics. -/
def members (p : Pattern) (k : String) (l : List IndexMetric) : List IndexMetric :=
  l.filter (fun e => streamKey p e.name = some k)

/-- Field-wise sum of the metric records of a list of index metrics. -/
def sumMetrics (l : List IndexMetric) : Metrics :=
  (l.map IndexMetric.metrics).sum

/-- Folding a list of members into a group, in list order. -/
def foldGroup (g : StreamGroup) : List IndexMetric → StreamGroup
  | [] => g
  | e :: ms => foldGroup (addIndexToGroup g e) ms


/-- The five weighted-mode coefficients. -/
structure Weights where
  storage_gb : Rat
  shard_count : Rat
  segment_count : Rat
  fielddata_mb : Rat
  query_cache_mb : Rat
deriving DecidableEq

/-- Source DEFAULT_WEIGHTS. -/
def DEFAULT_WEIGHTS : Weights :=
  ⟨1, 5, 1 / 10, 2, 1 / 2⟩

/-- Source CLUSTER_COST: the example monthly cluster cost constant. -/
def CLUSTER_COST : Rat := 1000

/-- Cluster-wide capacity totals over data-capable nodes, as returned by
fetch_cluster_info. -/
structure Capacity where
  disk_total_gb : Rat
  heap_max_mb : Rat
  data_nodes : Nat
deriving DecidableEq

/-- Source calculate_weighted_impact: the metric values named by
WEIGHTED_METRICS times their configured weights, in insertion order. -/
def calculate_weighted_impact (metrics : Metrics) (weights : Weights) : Rat :=
  metrics.total_storage_gb * weights.storage_gb
    + (metrics.total_shards : Rat) * weights.shard_count
    + (metrics.total_segments : Rat) * weights.segment_count
    + metrics.fielddata_mb * weights.fielddata_mb
    + metrics.query_cache_mb * weights.query_cache_mb

/-- Source calculate_capacity_impact: each capacity term is added only
behind a truthiness guard on its denominator. -/
def calculate_capacity_impact (metrics : Metrics) (capacity : Capacity) : Rat :=
  let score : Rat := 0
  let score := if capacity.disk_total_gb ≠ 0
    then score + metrics.total_storage_gb / capacity.disk_total_gb else score
  let heap_usage_mb := metrics.segment_memory_mb + metrics.fielddata_mb
    + metrics.query_cache_mb + metrics.request_cache_mb
  let score := if capacity.heap_max_mb ≠ 0
    then score + heap_usage_mb / capacity.heap_max_mb else score
  score

/-- The two scoring modes selectable per run. -/
inductive ScoreMode where
  | normalized
  | weighted
deriving DecidableEq

/-- Source apply_scoring: assign each group its score and sort by
descending score (a stable sort, as in the source runtime). -/
def apply_scoring (groups : List StreamGroup) (score_mode : ScoreMode)
    (weights : Weights) (capacity : Option Capacity) : List StreamGroup :=
  let scored := groups.map fun g =>
    { g with
      impact_score :=
        match score_mode with
        | ScoreMode.normalized => calculate_capacity_impact g.metrics (capacity.getD ⟨0, 0, 0⟩)
        | ScoreMode.weighted => calculate_weighted_impact g.metrics weights }
  scored.insertionSort (fun a b => b.impact_score ≤ a.impact_score)

/-- Python list slicing groups[:n], including a negative bound. -/
def pySliceTo (l : List StreamGroup) (n : Int) : List StreamGroup :=
  if 0 ≤ n then l.take n.toNat else l.take (l.length - (-n).toNat)

/-- The display-group selection of main: groups[:top] if top else
groups, so that an absent limit and a zero limit both show everything. -/
def selectDisplay (top : Option Int) (groups : List StreamGroup) : List StreamGroup :=
  match top with
  | none => groups
  | some n => if n = 0 then groups else pySliceTo groups n

/-- The per-group estimated monthly cost computed in render_report:
normalized scores multiply the example cost directly, weighted scores
are first renormalized by the total impact (zero total giving zero). -/
def estimated_monthly_cost (score_mode : ScoreMode) (score total_impact : Rat) : Rat :=
  match score_mode with
  | ScoreMode.normalized => CLUSTER_COST * score
  | ScoreMode.weighted =>
    let impact_pct := if total_impact ≠ 0 then score / total_impact * 100 else 0
    CLUSTER_COST * (impact_pct / 100)

/-- The fetches main performs against the cluster, in order. -/
inductive FetchEv where
  | stats
  | settings
  | capacity
deriving DecidableEq

/-- The terminal outcome of a run: a failure exit code with its message,
or the scored groups, display selection and total impact of a success. -/
inductive Outcome where
  | failure (code : Nat) (msg : String)
  | success (groups display : List StreamGroup) (total_impact : Rat)
deriving DecidableEq

/-- The run inputs and collaborator results main consumes: each fetch
result, the scoring mode, the pattern compilation result, the top-N
limit and the weights. -/
structure MainEnv where
  statsResult : Except String (List (String × RawIndexStats))
  settingsResult : Except String (List (String × IndexSettings))
  capacityResult : Except String Capacity
  score_mode : ScoreMode
  patternResult : Except String Pattern
  top : Option Int
  weights : Weights

/-- The data-quality message printed when both capacity denominators are
unavailable in normalized mode. -/
def capacity_unavailable_msg : String :=
  "Cluster capacity totals are unavailable; normalized scoring requires node stats."

/-- The configuration-error message printed for an invalid pattern. -/
def invalid_pattern_msg (e : String) : String :=
  "Invalid --index-pattern: " ++ e

/-- The post-fetch part of main: the normalized capacity check, metric
collection, pattern compilation, grouping, scoring, display selection
and total impact, in source order. -/
def analyzeWith (env : MainEnv) (stats : List (String × RawIndexStats))
    (settings : List (String × IndexSettings)) (cluster_info : Option Capacity) : Outcome :=
  let data_nodes := (cluster_info.map Capacity.data_nodes).getD 0
  let disk_total := (cluster_info.map Capacity.disk_total_gb).getD 0
  let heap_total := (cluster_info.map Capacity.heap_max_mb).getD 0
  if env.score_mode = ScoreMode.normalized ∧ disk_total = 0 ∧ heap_total = 0 then
    Outcome.failure 1 capacity_unavailable_msg
  else
    let index_metrics := collect_index_metrics stats settings data_nodes
    match env.patternResult with
    | Except.error e => Outcome.failure 2 (invalid_pattern_msg e)
    | Except.ok p =>
      let gu := group_by_logname index_metrics p
      if gu.1 = [] then Outcome.failure 1 "No indices matched the expected pattern."
      else
        let groups := apply_scoring gu.1 env.score_mode env.weights cluster_info
        let display := selectDisplay env.top groups
        Outcome.success groups display ((groups.map StreamGroup.impact_score).sum)

/-- The control flow of main after argument parsing: the fetches in
source order with their failure handling, then analyzeWith.  The first
component records which fetches the run performed. -/
def mainRun (env : MainEnv) : List FetchEv × Outcome :=
  match env.statsResult with
  | Except.error e => ([FetchEv.stats], Outcome.failure 1 ("Failed to fetch data: " ++ e))
  | Except.ok stats =>
    match env.settingsResult with
    | Except.error e =>
      ([FetchEv.stats, FetchEv.settings], Outcome.failure 1 ("Failed to fetch data: " ++ e))
    | Except.ok settings =>
      if decide (env.score_mode = ScoreMode.normalized) || needs_data_nodes settings then
        match env.capacityResult with
        | Except.ok cap =>
          ([FetchEv.stats, FetchEv.settings, FetchEv.capacity],
            analyzeWith env stats settings (some cap))
        | Except.error e =>
          if env.score_mode = ScoreMode.normalized then
            ([FetchEv.stats, FetchEv.settings, FetchEv.capacity],
              Outcome.failure 1 ("Failed to fetch cluster capacity: " ++ e))
          else
            ([FetchEv.stats, FetchEv.settings, FetchEv.capacity],
              analyzeWith env stats settings none)
      else
        ([FetchEv.stats, FetchEv.settings], analyzeWith env stats settings none)

theorem findGroup_nil (k : String) : findGroup k [] = none := rfl

theorem findGroup_cons (k : String) (g : StreamGroup) (gs : List StreamGroup) :
    findGroup k (g :: gs) = if g.log_name = k then some g else findGroup k gs := by
  by_cases h : g.log_name = k <;> simp [findGroup, List.find?_cons, h]

theorem addIndexToGroup_log_name (g : StreamGroup) (e : IndexMetric) :
    (addIndexToGroup g e).log_name = g.log_name := rfl

theorem init_group_log_name (k : String) : (init_group k).log_name = k := rfl

theorem findGroup_addEntry_self (gs : List StreamGroup) (k : String) (e : IndexMetric) :
    findGroup k (addEntry gs k e)
      = some (addIndexToGroup ((findGroup k gs).getD (init_group k)) e) := by
  induction gs with
  | nil =>
    simp [addEntry, findGroup_cons, addIndexToGroup_log_name, init_group_log_name,
      findGroup_nil, Option.getD]
  | cons g gs ih =>
    by_cases h : g.log_name = k
    · simp [addEntry, h, findGroup_cons, addIndexToGroup_log_name]
    · simp [addEntry, h, findGroup_cons, ih]

theorem findGroup_addEntry_ne (gs : List StreamGroup) (k k2 : String) (e : IndexMetric)
    (h : k2 ≠ k) : findGroup k (addEntry gs k2 e) = findGroup k gs := by
  induction gs with
  | nil => simp [addEntry, findGroup_cons, addIndexToGroup_log_name, init_group_log_name, h]
  | cons g gs ih =>
    by_cases hg : g.log_name = k2
    · have hgk : ¬g.log_name = k := by rw [hg]; exact h
      simp [addEntry, hg, findGroup_cons, addIndexToGroup_log_name, hgk, h]
    · simp [addEntry, hg, findGroup_cons, ih]

theorem members_nil (p : Pattern) (k : String) : members p k [] = [] := rfl

theorem members_cons (p : Pattern) (k : String) (e : IndexMetric) (l : List IndexMetric) :
    members p k (e :: l)
      = if streamKey p e.name = some k then e :: members p k l else members p k l := by
  by_cases h : streamKey p e.name = some k <;> simp [members, List.filter_cons, h]

theorem foldGroup_cons (g : StreamGroup) (e : IndexMetric) (ms : List IndexMetric) :
    foldGroup g (e :: ms) = foldGroup (addIndexToGroup g e) ms := rfl

theorem sumMetrics_nil : sumMetrics [] = 0 := rfl

theorem sumMetrics_cons (e : IndexMetric) (ms : List IndexMetric) :
    sumMetrics (e :: ms) = e.metrics + sumMetrics ms := by
  simp [sumMetrics]

theorem foldGroup_eq (ms : List IndexMetric) : ∀ g : StreamGroup,
    foldGroup g ms
      = ⟨g.log_name, g.index_count + ms.length, g.impact_score,
          g.metrics + sumMetrics ms, g.indices ++ ms.map IndexMetric.name⟩ := by
  induction ms with
  | nil => intro g; cases g; simp [foldGroup, sumMetrics_nil]
  | cons e ms ih =>
    intro g
    rw [foldGroup_cons, ih]
    cases g
    simp only [addIndexToGroup, sumMetrics_cons, List.map_cons, List.length_cons,
      StreamGroup.mk.injEq, true_and, and_true]
    refine ⟨by omega, add_assoc _ _ _, by simp⟩

theorem findGroup_groupLoop (p : Pattern) (l : List IndexMetric) :
    ∀ (gs : List StreamGroup) (un : List String) (k : String),
      findGroup k (groupLoop p l gs un).1 =
        match findGroup k gs with
        | some g => some (foldGroup g (members p k l))
        | none =>
          if members p k l = [] then none
          else some (foldGroup (init_group k) (members p k l)) := by
  induction l with
  | nil =>
    intro gs un k
    simp only [groupLoop, members_nil]
    cases findGroup k gs <;> simp [foldGroup]
  | cons e rest ih =>
    intro gs un k
    cases hsk : streamKey p e.name with
    | none =>
      have hne : ¬streamKey p e.name = some k := by simp [hsk]
      simp only [groupLoop, hsk]
      rw [ih, members_cons, if_neg hne]
    | some k2 =>
      simp only [groupLoop, hsk]
      rw [ih]
      by_cases hk : k2 = k
      · subst hk
        rw [findGroup_addEntry_self, members_cons, if_pos hsk]
        cases hfg : findGroup k2 gs with
        | some g => simp [foldGroup_cons]
        | none => simp [foldGroup_cons]
      · have hne : ¬streamKey p e.name = some k := by simp [hsk, hk]
        rw [findGroup_addEntry_ne _ _ _ _ hk, members_cons, if_neg hne]

theorem findGroup_group_by_logname (p : Pattern) (l : List IndexMetric) (k : String) :
    findGroup k (group_by_logname l p).1 =
      if members p k l = [] then none
      else some ⟨k, (members p k l).length, 0, sumMetrics (members p k l),
        (members p k l).map IndexMetric.name⟩ := by
  rw [group_by_logname, findGroup_groupLoop]
  simp only [findGroup_nil]
  by_cases h : members p k l = []
  · simp [h]
  · rw [if_neg h, if_neg h, foldGroup_eq]
    simp [init_group]

theorem groupLoop_unmatched (p : Pattern) (l : List IndexMetric) :
    ∀ (gs : List StreamGroup) (un : List String),
      (groupLoop p l gs un).2
        = un ++ (l.filter (fun e => (streamKey p e.name).isNone)).map IndexMetric.name := by
  induction l with
  | nil => intro gs un; simp [groupLoop]
  | cons e rest ih =>
    intro gs un
    cases hsk : streamKey p e.name with
    | none => simp only [groupLoop, hsk]; rw [ih]; simp [List.filter_cons, hsk]
    | some k2 => simp only [groupLoop, hsk]; rw [ih]; simp [List.filter_cons, hsk]

theorem not_mem_addEntry_indices (gs : List StreamGroup) (k : String) (e : IndexMetric)
    (nm : String) (h1 : nm ≠ e.name) (h2 : ∀ g ∈ gs, nm ∉ g.indices) :
    ∀ g ∈ addEntry gs k e, nm ∉ g.indices := by
  induction gs with
  | nil =>
    intro g hg
    simp only [addEntry, List.mem_singleton] at hg
    subst hg
    simp [addIndexToGroup, init_group, h1]
  | cons g0 gs ih =>
    intro g hg
    by_cases hk : g0.log_name = k
    · simp only [addEntry, if_pos hk, List.mem_cons] at hg
      rcases hg with hg | hg
      · subst hg
        have := h2 g0 (by simp)
        simp [addIndexToGroup, h1, this]
      · exact h2 g (by simp [hg])
    · simp only [addEntry, if_neg hk, List.mem_cons] at hg
      rcases hg with hg | hg
      · subst hg; exact h2 g (by simp)
      · exact ih (fun g2 hg2 => h2 g2 (by simp [hg2])) g hg

theorem not_mem_groupLoop_indices (p : Pattern) (nm : String)
    (h : streamKey p nm = none) (l : List IndexMetric) :
    ∀ (gs : List StreamGroup) (un : List String),
      (∀ g ∈ gs, nm ∉ g.indices) → ∀ g ∈ (groupLoop p l gs un).1, nm ∉ g.indices := by
  induction l with
  | nil => intro gs un hgs; simpa [groupLoop] using hgs
  | cons e rest ih =>
    intro gs un hgs
    cases hsk : streamKey p e.name with
    | none => simp only [groupLoop, hsk]; exact ih gs (un ++ [e.name]) hgs
    | some k2 =>
      simp only [groupLoop, hsk]
      refine ih (addEntry gs k2 e) un ?_
      refine not_mem_addEntry_indices gs k2 e nm ?_ hgs
      intro hnm
      rw [hnm, hsk] at h
      exact Option.noConfusion h

/-- Sum of the index_count fields over the group list. -/
def totalIndexCount (gs : List StreamGroup) : Nat :=
  (gs.map StreamGroup.index_count).sum

/-- Number of occurrences of an index name over all group member
lists. -/
def nameOcc (nm : String) (gs : List StreamGroup) : Nat :=
  (gs.map (fun g => g.indices.count nm)).sum

theorem totalIndexCount_addEntry (gs : List StreamGroup) (k : String) (e : IndexMetric) :
    totalIndexCount (addEntry gs k e) = totalIndexCount gs + 1 := by
  induction gs with
  | nil => simp [addEntry, totalIndexCount, addIndexToGroup, init_group]
  | cons g gs ih =>
    by_cases h : g.log_name = k
    · simp only [addEntry, if_pos h, totalIndexCount, List.map_cons, List.sum_cons,
        addIndexToGroup]
      omega
    · simp only [addEntry, if_neg h, totalIndexCount, List.map_cons, List.sum_cons]
      simp only [totalIndexCount] at ih
      omega

theorem count_singleton_name (nm x : String) :
    ([x] : List String).count nm = (if x = nm then 1 else 0) := by
  by_cases hx : x = nm <;> simp [List.count_cons, hx]

theorem nameOcc_addEntry (nm : String) (gs : List StreamGroup) (k : String) (e : IndexMetric) :
    nameOcc nm (addEntry gs k e) = nameOcc nm gs + (if e.name = nm then 1 else 0) := by
  induction gs with
  | nil =>
    simp only [addEntry, nameOcc, List.map_cons, List.map_nil, List.sum_cons, List.sum_nil,
      addIndexToGroup, init_group, List.nil_append]
    rw [count_singleton_name]
    omega
  | cons g gs ih =>
    by_cases h : g.log_name = k
    · simp only [addEntry, if_pos h, nameOcc, List.map_cons, List.sum_cons, addIndexToGroup,
        List.count_append]
      rw [count_singleton_name]
      omega
    · simp only [addEntry, if_neg h, nameOcc, List.map_cons, List.sum_cons]
      simp only [nameOcc] at ih
      omega

theorem groupLoop_counts (p : Pattern) (l : List IndexMetric) :
    ∀ (gs : List StreamGroup) (un : List String),
      totalIndexCount (groupLoop p l gs un).1 + ((groupLoop p l gs un).2).length
        = totalIndexCount gs + un.length + l.length := by
  induction l with
  | nil => intro gs un; simp [groupLoop]
  | cons e rest ih =>
    intro gs un
    cases hsk : streamKey p e.name with
    | none =>
      simp only [groupLoop, hsk]
      rw [ih]
      simp only [List.length_append, List.length_cons, List.length_nil]
      omega
    | some k2 =>
      simp only [groupLoop, hsk]
      rw [ih, totalIndexCount_addEntry]
      simp only [List.length_cons]
      omega

theorem groupLoop_nameOcc (p : Pattern) (nm : String) (l : List IndexMetric) :
    ∀ (gs : List StreamGroup) (un : List String),
      nameOcc nm (groupLoop p l gs un).1 + ((groupLoop p l gs un).2).count nm
        = nameOcc nm gs + un.count nm + ((l.map IndexMetric.name).count nm) := by
  induction l with
  | nil => intro gs un; simp [groupLoop]
  | cons e rest ih =>
    intro gs un
    have hmap : (e :: rest).map IndexMetric.name = e.name :: rest.map IndexMetric.name := rfl
    have hcnt : (e.name :: rest.map IndexMetric.name).count nm
        = (rest.map IndexMetric.name).count nm + (if e.name = nm then 1 else 0) := by
      by_cases hnm : e.name = nm <;> simp [List.count_cons, hnm]
    cases hsk : streamKey p e.name with
    | none =>
      simp only [groupLoop, hsk]
      rw [ih, List.count_append, count_singleton_name, hmap, hcnt]
      omega
    | some k2 =>
      simp only [groupLoop, hsk]
      rw [ih, nameOcc_addEntry, hmap, hcnt]
      omega

theorem splitFirstDash_left_no_dash (s : List Char) : '-' ∉ (splitFirstDash s).1 := by
  induction s with
  | nil => simp [splitFirstDash]
  | cons c rest ih =>
    by_cases hc : c = '-'
    · simp [splitFirstDash, hc]
    · simp only [splitFirstDash, if_neg hc, List.mem_cons, not_or]
      exact ⟨fun h => hc h.symm, ih⟩

theorem mem_of_mem_pyStripWs (c : Char) (s : List Char) (h : c ∈ pyStripWs s) : c ∈ s := by
  simp only [pyStripWs, List.mem_reverse] at h
  have h2 : c ∈ (s.dropWhile isWsChar).reverse := (List.dropWhile_sublist _).mem h
  rw [List.mem_reverse] at h2
  exact (List.dropWhile_sublist _).mem h2

theorem pyParseInt_nonneg (s : List Char) (h : '-' ∉ s) :
    ∀ k, pyParseInt s = some k → 0 ≤ k := by
  intro k hk
  cases ht : pyStripWs s with
  | nil => simp [pyParseInt, ht] at hk
  | cons c cs =>
    have hmem : c ∈ pyStripWs s := by rw [ht]; exact List.mem_cons_self c cs
    have hc : c ≠ '-' := by
      intro hcc
      exact h (mem_of_mem_pyStripWs '-' s (hcc ▸ hmem))
    simp only [pyParseInt, ht, if_neg hc] at hk
    split at hk <;> split at hk <;>
      first
        | (simp only [Option.some.injEq] at hk; subst hk; exact Int.natCast_nonneg _)
        | (cases hk)

theorem toIntChars_nonneg (l : List Char) (hl : '-' ∉ l) : 0 ≤ toIntChars l := by
  unfold toIntChars
  cases hp : pyParseInt l with
  | none => simp
  | some k => simpa using pyParseInt_nonneg l hl k hp

theorem parse_auto_expand_min_nonneg (s : List Char) : 0 ≤ (parse_auto_expand s).1 := by
  unfold parse_auto_expand
  cases hsp : splitFirstDash s with
  | mk l r =>
    have hl : '-' ∉ l := by
      have h0 := splitFirstDash_left_no_dash s
      rw [hsp] at h0
      exact h0
    cases r with
    | none => simp
    | some r2 =>
      by_cases hall : r2 = "all".data <;> simp [hall, toIntChars_nonneg l hl]

theorem parse_replicas_nonneg (value auto_expand : Option String) (n : Nat)
    (h1 : ∀ k, pyParseInt (value.getD "").data = some k → 0 ≤ k)
    (h2 : ∀ m, (parse_auto_expand (selected_auto_value value auto_expand).data).2 = some m →
      0 ≤ m) :
    0 ≤ parse_replicas value auto_expand n := by
  simp only [parse_replicas]
  split
  · next k hp => exact h1 k hp
  · next hp =>
    have hmin := parse_auto_expand_min_nonneg (selected_auto_value value auto_expand).data
    split
    · next hguard => exact le_refl 0
    · next hguard =>
      split
      · next hn =>
        split
        · next m hmx => have hm := h2 m hmx; omega
        · next hmx => omega
      · next hn => exact hmin

/-- C3: in weighted mode every group scores the sum over the five
weighted metrics of the group value times its configured weight, and the
documented example under the default weights scores exactly 43. -/
theorem c3_weighted_scoring :
    (∀ (m : Metrics) (w : Weights),
      calculate_weighted_impact m w =
        m.total_storage_gb * w.storage_gb + (m.total_shards : Rat) * w.shard_count
          + (m.total_segments : Rat) * w.segment_count + m.fielddata_mb * w.fielddata_mb
          + m.query_cache_mb * w.query_cache_mb)
    ∧ calculate_weighted_impact ⟨0, 10, 0, 4, 20, 0, 5, 2, 0⟩ DEFAULT_WEIGHTS = 43 := by
  constructor
  · intro m w; rfl
  · norm_num [calculate_weighted_impact, DEFAULT_WEIGHTS]

/-- C4: per scored group the estimated monthly cost is the example
cluster cost times score over total impact in weighted mode, and the
example cluster cost times the score directly in normalized mode; the
documented 60-40 split of 1000 dollars gives 600 and 400. -/
theorem c4_cost_attribution :
    ∀ (score total_impact : Rat),
      estimated_monthly_cost ScoreMode.weighted score total_impact
          = CLUSTER_COST * (score / total_impact)
        ∧ estimated_monthly_cost ScoreMode.normalized score total_impact
            = CLUSTER_COST * score
        ∧ estimated_monthly_cost ScoreMode.weighted 60 100 = 600
        ∧ estimated_monthly_cost ScoreMode.weighted 40 100 = 400 := by
  intro s t
  refine ⟨?_, rfl, by norm_num [estimated_monthly_cost, CLUSTER_COST],
    by norm_num [estimated_monthly_cost, CLUSTER_COST]⟩
  by_cases ht : t = 0
  · simp [estimated_monthly_cost, ht]
  · simp only [estimated_monthly_cost]
    rw [if_pos ht]
    have h100 : s / t * 100 / 100 = s / t :=
      mul_div_cancel_right₀ _ (by norm_num)
    rw [h100]

/-- C10: a top limit of zero displays the full ranked group list exactly
as an absent limit does, and a positive limit takes the first n
groups. -/
theorem c10_display_limit_zero :
    ∀ (gs : List StreamGroup) (n : Int),
      selectDisplay (some 0) gs = gs ∧ selectDisplay none gs = gs
        ∧ (0 < n → selectDisplay (some n) gs = gs.take n.toNat) := by
  intro gs n
  refine ⟨by simp [selectDisplay], rfl, ?_⟩
  intro hn
  have hne : ¬n = 0 := by omega
  have hnn : (0 : Int) ≤ n := le_of_lt hn
  simp [selectDisplay, hne, pySliceTo, hnn]

/-- Three empty groups used to exercise the display selection. -/
def exampleGroups : List StreamGroup :=
  [init_group "a", init_group "b", init_group "c"]

/-- Witness for C10 at a concrete positive limit. -/
theorem c10_witness :
    (0 : Int) < 2 ∧ selectDisplay (some 2) exampleGroups = exampleGroups.take (2 : Int).toNat :=
  ⟨by decide, (c10_display_limit_zero exampleGroups 2).2.2 (by decide)⟩

/-- C2: the normalized score of a group is the storage fraction plus the
heap fraction, each term guarded by a non-zero denominator and
contributing zero otherwise, and a run in normalized mode in which both
capacity denominators are zero fails with the data-quality message
instead of producing scores. -/
theorem c2_capacity_normalized_scoring :
    (∀ (m : Metrics) (cap : Capacity),
      calculate_capacity_impact m cap =
        (if cap.disk_total_gb ≠ 0 then m.total_storage_gb / cap.disk_total_gb else 0)
          + (if cap.heap_max_mb ≠ 0 then
              (m.segment_memory_mb + m.fielddata_mb + m.query_cache_mb + m.request_cache_mb)
                / cap.heap_max_mb
            else 0))
    ∧ (∀ (env : MainEnv) (stats : List (String × RawIndexStats))
        (settings : List (String × IndexSettings)) (cap : Capacity),
        env.score_mode = ScoreMode.normalized →
        env.statsResult = Except.ok stats →
        env.settingsResult = Except.ok settings →
        env.capacityResult = Except.ok cap →
        cap.disk_total_gb = 0 → cap.heap_max_mb = 0 →
        (mainRun env).2 = Outcome.failure 1 capacity_unavailable_msg) := by
  constructor
  · intro m cap
    by_cases hd : cap.disk_total_gb = 0 <;> by_cases hh : cap.heap_max_mb = 0 <;>
      simp [calculate_capacity_impact, hd, hh]
  · intro env stats settings cap hmode hstats hsettings hcap hd hh
    obtain ⟨sr, se, cr, mode, pr, top, w⟩ := env
    simp only at hmode hstats hsettings hcap
    subst hmode hstats hsettings hcap
    simp [mainRun, analyzeWith, hd, hh]

/-- Run environment in which both capacity denominators are zero. -/
def envBothZero : MainEnv :=
  ⟨Except.ok [], Except.ok [], Except.ok ⟨0, 0, 0⟩, ScoreMode.normalized,
    Except.error "unused", none, DEFAULT_WEIGHTS⟩

/-- Witness for C2: the all-zero-denominator normalized run aborts. -/
theorem c2_witness :
    (mainRun envBothZero).2 = Outcome.failure 1 capacity_unavailable_msg :=
  c2_capacity_normalized_scoring.2 envBothZero [] [] ⟨0, 0, 0⟩ rfl rfl rfl rfl rfl rfl

/-- Run environment with an invalid grouping pattern and successful
fetches. -/
def envInvalidPattern : MainEnv :=
  ⟨Except.ok [], Except.ok [], Except.ok ⟨1, 1, 1⟩, ScoreMode.weighted,
    Except.error "unbalanced parenthesis", none, DEFAULT_WEIGHTS⟩

/-- Counterexample to C8 as stated: a run with an invalid grouping
pattern performs the stats and settings fetches first and only then
aborts with the configuration error, so the abort does not come before
any fetch. -/
theorem c8_counterexample :
    (mainRun envInvalidPattern).1 = [FetchEv.stats, FetchEv.settings]
      ∧ (mainRun envInvalidPattern).2
          = Outcome.failure 2 (invalid_pattern_msg "unbalanced parenthesis") := by
  constructor <;> rfl

/-- C8 amended: an invalid grouping pattern makes the run abort with the
configuration error and exit status 2, but only after the stats and
settings fetches have been performed. -/
theorem c8_amended_config_error :
    ∀ (env : MainEnv) (stats : List (String × RawIndexStats))
      (settings : List (String × IndexSettings)) (e : String),
      env.patternResult = Except.error e →
      env.statsResult = Except.ok stats →
      env.settingsResult = Except.ok settings →
      (env.score_mode = ScoreMode.normalized →
        ∃ cap, env.capacityResult = Except.ok cap
          ∧ ¬(cap.disk_total_gb = 0 ∧ cap.heap_max_mb = 0)) →
      (mainRun env).2 = Outcome.failure 2 (invalid_pattern_msg e)
        ∧ FetchEv.stats ∈ (mainRun env).1 ∧ FetchEv.settings ∈ (mainRun env).1 := by
  intro env stats settings e hpat hstats hsettings hcap
  obtain ⟨sr, se, cr, mode, pr, top, w⟩ := env
  simp only at hpat hstats hsettings hcap
  subst hpat hstats hsettings
  cases mode with
  | normalized =>
    obtain ⟨cap, hcr, hnz⟩ := hcap rfl
    subst hcr
    simp [mainRun, analyzeWith, hnz]
  | weighted =>
    by_cases hneeds : needs_data_nodes settings
    · cases cr with
      | ok cap => simp [mainRun, analyzeWith, hneeds]
      | error msg => simp [mainRun, analyzeWith, hneeds]
    · simp [mainRun, analyzeWith, hneeds]

/-- Witness for C8 amended at the concrete invalid-pattern run. -/
theorem c8_witness :
    (mainRun envInvalidPattern).2
        = Outcome.failure 2 (invalid_pattern_msg "unbalanced parenthesis")
      ∧ FetchEv.stats ∈ (mainRun envInvalidPattern).1
      ∧ FetchEv.settings ∈ (mainRun envInvalidPattern).1 :=
  c8_amended_config_error envInvalidPattern [] [] "unbalanced parenthesis" rfl rfl rfl
    (fun h => ScoreMode.noConfusion h)

/-- Counterexample to C1 as stated: for the raw replica value false with
3 data nodes the claim formula, which always splits the selected
expression, yields 2, while parse_replicas returns 0 because an empty or
false expression resolves to zero replicas before any split. -/
theorem c1_counterexample :
    claimReplicas (some "false") none 3 = 2
      ∧ parse_replicas (some "false") none 3 = 0 := by
  constructor <;> decide

/-- C1 amended: an integer-parsing raw value is returned directly;
otherwise, when the selected auto-expand expression is empty or the
literal false the result is 0, and otherwise the expression is split on
the first dash, giving with a positive data-node count the maximum of
the minimum replicas and the node count less one, clamped to the maximum
when one is set, and with zero data nodes the minimum replicas; the two
documented examples hold. -/
theorem c1_amended_replica_resolution :
    ∀ (value auto_expand : Option String) (n : Nat),
      (∀ k, pyParseInt (value.getD "").data = some k →
        parse_replicas value auto_expand n = k)
      ∧ (pyParseInt (value.getD "").data = none →
          ((selected_auto_value value auto_expand = ""
              ∨ selected_auto_value value auto_expand = "false") →
            parse_replicas value auto_expand n = 0)
          ∧ (¬(selected_auto_value value auto_expand = ""
              ∨ selected_auto_value value auto_expand = "false") →
            (0 < n →
              parse_replicas value auto_expand n =
                (match (parse_auto_expand (selected_auto_value value auto_expand).data).2 with
                 | some m =>
                   min (max (parse_auto_expand (selected_auto_value value auto_expand).data).1
                     ((n : Int) - 1)) m
                 | none =>
                   max (parse_auto_expand (selected_auto_value value auto_expand).data).1
                     ((n : Int) - 1)))
            ∧ (n = 0 → parse_replicas value auto_expand n =
                (parse_auto_expand (selected_auto_value value auto_expand).data).1)))
      ∧ parse_replicas (some "0-2") none 3 = 2
      ∧ parse_replicas (some "1-all") none 0 = 1 := by
  intro value auto_expand n
  refine ⟨?_, ?_, by decide, by decide⟩
  · intro k hk
    simp only [parse_replicas, hk]
  · intro hnone
    refine ⟨?_, ?_⟩
    · intro hguard
      simp only [parse_replicas, hnone]
      rw [if_pos hguard]
    · intro hguard
      refine ⟨?_, ?_⟩
      · intro hn
        simp only [parse_replicas, hnone]
        rw [if_neg hguard, if_pos hn]
      · intro hn0
        subst hn0
        simp only [parse_replicas, hnone]
        rw [if_neg hguard, if_neg (by omega : ¬(0 : Nat) < 0)]

/-- Witness for C1 amended: the integer fast path at a concrete
value. -/
theorem c1_witness : parse_replicas (some "3") none 0 = 3 :=
  (c1_amended_replica_resolution (some "3") none 0).1 3 (by decide)

/-- Settings of a run whose raw replica value is the string -1. -/
def negSettings : List (String × IndexSettings) :=
  [("idx-1", ⟨some "1", some "-1", none⟩)]

/-- Counterexample to C5 as stated: with the raw replica setting -1 the
effective replica count of the produced index metric is negative, since
the integer fast path returns the parsed value unchecked. -/
theorem c5_counterexample : effReplicas negSettings 3 "idx-1" = -1 := by
  decide

/-- C5 amended: every produced index metric satisfies the total-shards
identity, and the effective replica count is non-negative provided the
raw replica value does not parse as a negative integer and the maximum
of the selected auto-expand expression does not parse as a negative
integer. -/
theorem c5_amended_shard_invariant :
    ∀ (stats : List (String × RawIndexStats)) (settings : List (String × IndexSettings))
      (n : Nat) (e : IndexMetric),
      e ∈ collect_index_metrics stats settings n →
      e.metrics.total_shards
          = to_int (settingsFor settings e.name).number_of_shards
              * (1 + effReplicas settings n e.name)
        ∧ ((∀ k, pyParseInt (((settingsFor settings e.name).number_of_replicas).getD "").data
              = some k → 0 ≤ k) →
           (∀ m, (parse_auto_expand (selected_auto_value
                (settingsFor settings e.name).number_of_replicas
                (settingsFor settings e.name).auto_expand_replicas).data).2 = some m →
              0 ≤ m) →
           0 ≤ effReplicas settings n e.name) := by
  intro stats settings n e he
  simp only [collect_index_metrics, List.mem_map] at he
  obtain ⟨p, hp, rfl⟩ := he
  constructor
  · rfl
  · intro h1 h2
    exact parse_replicas_nonneg _ _ n h1 h2

/-- All-zero raw statistics record. -/
def zeroRawStats : RawIndexStats := ⟨0, 0, 0, 0, 0, 0, 0, 0⟩

/-- Statistics payload of a one-index run. -/
def okStats : List (String × RawIndexStats) := [("logstash-a-1", zeroRawStats)]

/-- Settings of that run: two shards, one replica. -/
def okSettings : List (String × IndexSettings) :=
  [("logstash-a-1", ⟨some "2", some "1", none⟩)]

/-- The metric record that run produces for its single index. -/
def okMetric : IndexMetric :=
  { name := "logstash-a-1"
    metrics :=
      { primary_storage_gb := bytes_to_gb 0
        total_storage_gb := bytes_to_gb 0
        doc_count := 0
        total_shards := to_int (some "2") * (1 + parse_replicas (some "1") none 3)
        total_segments := 0
        segment_memory_mb := bytes_to_mb 0
        fielddata_mb := bytes_to_mb 0
        query_cache_mb := bytes_to_mb 0
        request_cache_mb := bytes_to_mb 0 } }

/-- Witness for C5 amended at the concrete one-index run. -/
theorem c5_witness :
    okMetric.metrics.total_shards
        = to_int (settingsFor okSettings okMetric.name).number_of_shards
            * (1 + effReplicas okSettings 3 okMetric.name)
      ∧ 0 ≤ effReplicas okSettings 3 okMetric.name := by
  have h := c5_amended_shard_invariant okStats okSettings 3 okMetric
    (List.mem_singleton.mpr rfl)
  refine ⟨h.1, h.2 ?_ ?_⟩
  · intro k hk
    have h1v : pyParseInt
        (((settingsFor okSettings okMetric.name).number_of_replicas).getD "").data
          = some 1 := by decide
    rw [h1v] at hk
    cases hk
    decide
  · intro m hm
    have h2v : (parse_auto_expand (selected_auto_value
        (settingsFor okSettings okMetric.name).number_of_replicas
        (settingsFor okSettings okMetric.name).auto_expand_replicas).data).2 = none := by
      decide
    rw [h2v] at hm
    cases hm

/-- C6: a non-matching index name goes to the unmatched list and into no
group; a matching one is keyed by the named group log_name when the
pattern has one, else by the first capture group, else by the full index
name; a missing or empty captured value falls back to the full index
name. -/
theorem c6_grouping_classification :
    ∀ (p : Pattern) (c : Captures) (nm : String) (l : List IndexMetric),
      (∀ s, p.has_log_name = true → c.log_name = some s → s ≠ "" →
        extract_log_name p c nm = s)
      ∧ (∀ s, p.has_log_name = false → 1 ≤ p.groups → c.first = some s → s ≠ "" →
          extract_log_name p c nm = s)
      ∧ (p.has_log_name = false → p.groups = 0 → extract_log_name p c nm = nm)
      ∧ (p.has_log_name = true → c.log_name = some "" → extract_log_name p c nm = nm)
      ∧ (p.has_log_name = false → 1 ≤ p.groups → c.first = some "" →
          extract_log_name p c nm = nm)
      ∧ (p.has_log_name = true → c.log_name = none → extract_log_name p c nm = nm)
      ∧ (∀ e ∈ l, p.matchFn e.name = none →
          e.name ∈ (group_by_logname l p).2
            ∧ ∀ g ∈ (group_by_logname l p).1, e.name ∉ g.indices) := by
  intro p c nm l
  refine ⟨?_, ?_, ?_, ?_, ?_, ?_, ?_⟩
  · intro s h1 h2 h3
    simp [extract_log_name, h1, h2, h3]
  · intro s h1 h2 h3 h4
    simp [extract_log_name, h1, h2, h3, h4]
  · intro h1 h2
    simp [extract_log_name, h1, h2]
  · intro h1 h2
    simp [extract_log_name, h1, h2]
  · intro h1 h2 h3
    simp [extract_log_name, h1, h2, h3]
  · intro h1 h2
    simp [extract_log_name, h1, h2]
  · intro e he hmatch
    have hsk : streamKey p e.name = none := by simp [streamKey, hmatch]
    constructor
    · rw [group_by_logname, groupLoop_unmatched]
      simp only [List.nil_append]
      exact List.mem_map_of_mem _ (List.mem_filter.mpr ⟨he, by simp [hsk]⟩)
    · exact not_mem_groupLoop_indices p e.name hsk l [] [] (by simp)

/-- A concrete pattern with one positional capture group modelling the
default logstash grouping pattern on three known names. -/
def pw : Pattern where
  has_log_name := false
  groups := 1
  matchFn := fun nm =>
    if nm = "logstash-a-1" then some ⟨none, some "a"⟩
    else if nm = "logstash-a-2" then some ⟨none, some "a"⟩
    else if nm = "logstash-b-1" then some ⟨none, some "b"⟩
    else none

/-- First concrete index metric. -/
def m1 : IndexMetric := ⟨"logstash-a-1", ⟨1, 2, 3, 4, 5, 6, 7, 8, 9⟩⟩

/-- Second concrete index metric, same stream as the first. -/
def m2 : IndexMetric := ⟨"logstash-a-2", ⟨1, 1, 1, 1, 1, 1, 1, 1, 1⟩⟩

/-- Third concrete index metric, matching no pattern. -/
def m3 : IndexMetric := ⟨"metrics-summary", 0⟩

/-- A concrete metric list and a permutation of it. -/
def lw : List IndexMetric := [m1, m2, m3]

/-- The same metrics with the first two swapped. -/
def lw2 : List IndexMetric := [m2, m1, m3]

/-- Witness for C6: the first capture keys the stream, and the
non-matching index lands in the unmatched list. -/
theorem c6_witness :
    extract_log_name pw ⟨none, some "a"⟩ "logstash-a-1" = "a"
      ∧ "metrics-summary" ∈ (group_by_logname lw pw).2 := by
  have h := c6_grouping_classification pw ⟨none, some "a"⟩ "logstash-a-1" lw
  refine ⟨h.2.1 "a" rfl (by decide) rfl (by decide), ?_⟩
  have hmem : m3 ∈ lw :=
    List.mem_cons_of_mem m1 (List.mem_cons_of_mem m2 (List.mem_cons_self m3 []))
  exact (h.2.2.2.2.2.2 m3 hmem (by decide)).1

/-- C7: the aggregate of every produced group is the field-wise sum of
its members with the index count equal to the member-list length, and
the aggregate and count for any stream key are identical across any
permutation of the input metrics. -/
theorem c7_aggregation_order_independent :
    ∀ (p : Pattern) (l l2 : List IndexMetric) (k : String),
      l.Perm l2 →
      (∀ g, findGroup k (group_by_logname l p).1 = some g →
          g.metrics = sumMetrics (members p k l)
            ∧ g.index_count = (members p k l).length
            ∧ g.indices = (members p k l).map IndexMetric.name)
      ∧ (findGroup k (group_by_logname l p).1).map (fun g => (g.metrics, g.index_count))
          = (findGroup k (group_by_logname l2 p).1).map (fun g => (g.metrics, g.index_count)) := by
  intro p l l2 k hperm
  have hm : (members p k l).Perm (members p k l2) := hperm.filter _
  constructor
  · intro g hg
    rw [findGroup_group_by_logname] at hg
    by_cases hmem : members p k l = []
    · rw [if_pos hmem] at hg; cases hg
    · rw [if_neg hmem] at hg
      cases hg
      exact ⟨rfl, rfl, rfl⟩
  · rw [findGroup_group_by_logname, findGroup_group_by_logname]
    have hsum : sumMetrics (members p k l) = sumMetrics (members p k l2) :=
      List.Perm.sum_eq (hm.map IndexMetric.metrics)
    have hlen : (members p k l).length = (members p k l2).length := hm.length_eq
    by_cases hmem : members p k l = []
    · have hmem2 : members p k l2 = [] := by
        rw [hmem] at hm
        exact hm.symm.eq_nil
      simp [hmem, hmem2]
    · have hmem2 : ¬members p k l2 = [] := by
        intro h2
        rw [h2] at hm
        exact hmem hm.eq_nil
      rw [if_neg hmem, if_neg hmem2]
      simp [hsum, hlen]

/-- Witness for C7 at a concrete pattern, metric list and swap
permutation. -/
theorem c7_witness :
    (findGroup "a" (group_by_logname lw pw).1).map (fun g => (g.metrics, g.index_count))
      = (findGroup "a" (group_by_logname lw2 pw).1).map (fun g => (g.metrics, g.index_count)) :=
  (c7_aggregation_order_independent pw lw lw2 "a" (List.Perm.swap m2 m1 [m3])).2

/-- C9: the index counts of all groups plus the unmatched-list length
equal the number of input metrics; per name, occurrences across the
unmatched list and all member lists equal its occurrences in the input;
with distinct input names every input index appears exactly once in the
output. -/
theorem c9_partition_invariant :
    ∀ (p : Pattern) (l : List IndexMetric),
      totalIndexCount (group_by_logname l p).1 + ((group_by_logname l p).2).length = l.length
      ∧ (∀ nm, nameOcc nm (group_by_logname l p).1 + ((group_by_logname l p).2).count nm
          = (l.map IndexMetric.name).count nm)
      ∧ ((l.map IndexMetric.name).Nodup → ∀ e ∈ l,
          nameOcc e.name (group_by_logname l p).1
            + ((group_by_logname l p).2).count e.name = 1) := by
  intro p l
  refine ⟨?_, ?_, ?_⟩
  · have h := groupLoop_counts p l [] []
    simpa [group_by_logname, totalIndexCount] using h
  · intro nm
    have h := groupLoop_nameOcc p nm l [] []
    simpa [group_by_logname, nameOcc] using h
  · intro hnodup e he
    have h := groupLoop_nameOcc p e.name l [] []
    have hcount : (l.map IndexMetric.name).count e.name = 1 :=
      List.count_eq_one_of_mem hnodup (List.mem_map_of_mem _ he)
    rw [group_by_logname]
    simp only [nameOcc, List.map_nil, List.sum_nil, List.count_nil, Nat.zero_add] at h
    rw [show nameOcc e.name (groupLoop p l [] []).1
        = ((groupLoop p l [] []).1.map (fun g => g.indices.count e.name)).sum from rfl]
    omega

/-- Witness for C9 at the concrete metric list with distinct names. -/
theorem c9_witness :
    nameOcc m1.name (group_by_logname lw pw).1
        + ((group_by_logname lw pw).2).count m1.name = 1 :=
  (c9_partition_invariant pw lw).2.2 (by decide) m1 (List.mem_cons_self m1 [m2, m3])
